import Mathlib

/-!
Verification of the toy-blog static site generator (`src/cli.js` / `cli.ts`).

The development shallowly embeds the generator's core: the DOM tree model,
post-record extraction (`main`, step 3), the navigation string builders
(`makePostHTML` / `makeIndexHTML`), the recursive tree-rewriting visitor
(`visit`), the ordering policy (`posts.sort`), and the assembly pipeline.

Modelling conventions:
- A DOM tree is `Node`: element nodes carry a (lower-cased, as produced by
  `tagName.toLowerCase()`) tag name, an opaque attribute string, and a child
  list; text nodes carry a string.  Comment nodes are out of scope.
- `innerHTML` reads are modelled by `serializeL`; parsing a serialized
  fragment back is modelled as the identity on the node list (the source
  round-trips strings through jsdom's parser).
- The source's `visit` mutates the tree while iterating `element.childNodes`
  with `for..of`.  `childNodes` is a live NodeList whose iterator is
  index-based, so when `child.outerHTML = s` replaces the child by the
  parsed fragment of `s`, the first fragment node occupies the child's index
  (and is not revisited) while the remaining fragment nodes and the original
  right siblings are visited next.  `visitList` models exactly this worklist
  semantics; the `fuel` argument makes the (possibly diverging) iteration a
  total function, with `none` meaning "has not finished within `fuel` steps".
-/

namespace ToyBlog

open scoped List

/-- A DOM node: an element (tag name, attribute text, children) or a text
node.  Tag names are stored lower-case, matching the dispatch
`element.tagName?.toLowerCase()` in the source. -/
inductive Node where
  | elem (tag : String) (attrs : String) (children : List Node)
  | text (s : String)

mutual
/-- Size of a node (number of nodes in the subtree); used as a fuel bound. -/
def sizeN : Node → Nat
  | .text _ => 1
  | .elem _ _ cs => 1 + sizeL cs
/-- Total size of a list of subtrees. -/
def sizeL : List Node → Nat
  | [] => 0
  | c :: cs => sizeN c + sizeL cs
end

/-- The tag of an element node, `none` for a text node (whose `tagName` is
`undefined` in the source). -/
def tagOfN : Node → Option String
  | .elem t _ _ => some t
  | .text _ => none

/-- The children of an element node (a text node has none). -/
def childrenN : Node → List Node
  | .elem _ _ cs => cs
  | .text _ => []

mutual
/-- Does the subtree rooted at this node contain an element with this tag
(the node itself included)?  Models `querySelector(tag) !== null` scoped to
one subtree. -/
def hasTagN (tag : String) : Node → Bool
  | .text _ => false
  | .elem t _ cs => t == tag || hasTagL tag cs
/-- Does any subtree in the list contain an element with this tag? -/
def hasTagL (tag : String) : List Node → Bool
  | [] => false
  | c :: cs => hasTagN tag c || hasTagL tag cs
end

mutual
/-- Number of elements with this tag in the subtree (node itself included).
Models `querySelectorAll(tag).length`. -/
def countTagN (tag : String) : Node → Nat
  | .text _ => 0
  | .elem t _ cs => (if t == tag then 1 else 0) + countTagL tag cs
/-- Number of elements with this tag across a list of subtrees. -/
def countTagL (tag : String) : List Node → Nat
  | [] => 0
  | c :: cs => countTagN tag c + countTagL tag cs
end

mutual
/-- First element with this tag in pre-order, the node itself included.
Models `document.querySelector(tag)`. -/
def findFirstN (tag : String) : Node → Option Node
  | .text _ => none
  | .elem t a cs => if t == tag then some (.elem t a cs) else findFirstL tag cs
/-- First element with this tag in pre-order over a list of subtrees.
Models `element.querySelector(tag)` applied to an element with these
children (the DOM call searches descendants only). -/
def findFirstL (tag : String) : List Node → Option Node
  | [] => none
  | c :: cs =>
    match findFirstN tag c with
    | some r => some r
    | none => findFirstL tag cs
end

mutual
/-- `outerHTML`-style serialization of one node.  Attribute text is carried
verbatim; void tags and text escaping are outside the modelled fragment. -/
def serializeN : Node → String
  | .text s => s
  | .elem t a cs => "<" ++ t ++ a ++ ">" ++ serializeL cs ++ "</" ++ t ++ ">"
/-- Serialization of a child list; models `element.innerHTML` reads. -/
def serializeL : List Node → String
  | [] => ""
  | c :: cs => serializeN c ++ serializeL cs
end

/-- `innerHTML` of a node: the serialization of its children. -/
def innerHTMLN (n : Node) : String := serializeL (childrenN n)

/-- Where the first pre-order occurrence of `tag` sits relative to these
children: `none` if absent, `some true` if the first occurrence is one of
the direct children themselves, `some false` if it is nested deeper.
`removeChild` on the queried element succeeds exactly in the `some true`
case and throws `NotFoundError` otherwise. -/
def locateStatus (tag : String) : List Node → Option Bool
  | [] => none
  | .text _ :: rest => locateStatus tag rest
  | .elem t _ k :: rest =>
    if t == tag then some true
    else if hasTagL tag k then some false
    else locateStatus tag rest

/-- Remove the first direct child carrying `tag`; models the successful
`postElement.removeChild(...)` of a queried element that is a direct
child. -/
def eraseFirstDirect (tag : String) : List Node → List Node
  | [] => []
  | .text s :: rest => .text s :: eraseFirstDirect tag rest
  | .elem t a k :: rest =>
    if t == tag then rest else .elem t a k :: eraseFirstDirect tag rest

/-- A post record, as pushed onto `posts` in `main`.  `titleNodes` is the
parse of the `title` string (the title element's children) and
`bodyChildren` the children of `inputElement` after the removals; the
record keeps both the string and tree forms since the source re-parses the
strings during rendering. -/
structure Post where
  filename : String
  title : String
  titleNodes : List Node
  dateTs : Int
  headEl : Option Node
  bodyChildren : List Node
  isDraft : Bool
  isStarred : Bool

/-- Error message for a missing/empty title (source line 205). -/
def titleErrMsg (filename : String) : String :=
  "Post with input file " ++ filename ++ " must have a non-empty <toyb-title> tag"

/-- Error message for a missing/unparseable date (source line 210). -/
def dateErrMsg (filename : String) : String :=
  "Post with input file " ++ filename ++ " must have a valid <toyb-date> tag"

/-- Error raised by `removeChild` when the queried element is not a direct
child of the post container (also stands in for the `TypeError` of
`removeChild(null)` when the date tag is absent yet the date string parsed). -/
def notFoundErr : String := "NotFoundError"

/-- The string handed to `Date.parse`: `dateElement?.innerHTML || ''`. -/
def dateTextOfCs (cs : List Node) : String :=
  match findFirstL "toyb-date" cs with
  | none => ""
  | some d => innerHTMLN d

/-- The body left in the container by the removals (source lines 213-218):
first the queried title child, then the queried date child, then — when a
head element was found — the queried head child. -/
def stripBody (cs : List Node) : List Node :=
  let cs1 := eraseFirstDirect "toyb-title" cs
  let cs2 := eraseFirstDirect "toyb-date" cs1
  match findFirstL "toyb-head" cs with
  | some _ => eraseFirstDirect "toyb-head" cs2
  | none => cs2

/-- The post record a successful ingestion pushes (source lines 221-230):
the draft/star queries run on the container after the removals. -/
def mkIngestPost (fn : String) (tEl : Node) (ts : Int) (cs : List Node) : Post :=
  { filename := fn, title := innerHTMLN tEl, titleNodes := childrenN tEl,
    dateTs := ts, headEl := findFirstL "toyb-head" cs,
    bodyChildren := stripBody cs,
    isDraft := hasTagL "toyb-draft" (stripBody cs),
    isStarred := hasTagL "toyb-star" (stripBody cs) }

/-- All three `removeChild` calls succeed: the first occurrences of title
and date are direct children, and so is the head's when a head was found. -/
def goodLoc (cs : List Node) : Bool :=
  (locateStatus "toyb-title" cs == some true)
    && ((locateStatus "toyb-date" cs == some true)
    && (match findFirstL "toyb-head" cs with
        | none => true
        | some _ => locateStatus "toyb-head" cs == some true))

/-- The removal phase (source lines 212-230): the elements located by the
pre-removal queries are detached with `removeChild`, which succeeds only
when the located element is a direct child of the container (queries and
removals follow the source order: title, date, then head if present). -/
def removePhase (fn : String) (tEl : Node) (ts : Int) (cs : List Node) :
    Except String Post :=
  match locateStatus "toyb-title" cs with
  | some true =>
    match locateStatus "toyb-date" cs with
    | some true =>
      match findFirstL "toyb-head" cs with
      | some _ =>
        match locateStatus "toyb-head" cs with
        | some true => .ok (mkIngestPost fn tEl ts cs)
        | _ => .error notFoundErr
      | none => .ok (mkIngestPost fn tEl ts cs)
    | _ => .error notFoundErr
  | _ => .error notFoundErr

/-- Ingestion of one post container (source lines 203-230), operating on the
children `cs` of the located `<toyb-post>` element.  `parseDate` models the
host platform's `Date.parse` (`none` for `NaN`).  Mirrors the source order:
title query and emptiness check (no trimming), date query and parse check,
then the removal phase. -/
def ingestContainer (parseDate : String → Option Int) (filename : String)
    (cs : List Node) : Except String Post :=
  match findFirstL "toyb-title" cs with
  | none => .error (titleErrMsg filename)
  | some tEl =>
    if innerHTMLN tEl == "" then .error (titleErrMsg filename)
    else
      match parseDate (dateTextOfCs cs) with
      | none => .error (dateErrMsg filename)
      | some ts => removePhase filename tEl ts cs

/-- Ingestion of one parsed HTML file: `none` when the document has no
`<toyb-post>` container (the file is copied verbatim instead). -/
def ingestPost (parseDate : String → Option Int) (filename : String)
    (doc : Node) : Option (Except String Post) :=
  match findFirstN "toyb-post" doc with
  | none => none
  | some el => some (ingestContainer parseDate filename (childrenN el))

/-- One `<li>` of the post-page navigation string (source line 46). -/
def postNavItemStr (p : Post) : String :=
  "<li><a href=\"./" ++ p.filename ++ "\">" ++ p.title ++ "</a></li>"

/-- One `<li>` of the index navigation string (source line 107). -/
def indexNavItemStr (p : Post) : String :=
  "<li><a href=\"posts/" ++ p.filename ++ "\">" ++ p.title ++ "</a></li>"

/-- The post-page navigation string (source lines 44-48): starts from the
wrapper opening, appends one item per post (drafts included), closes the
wrapper. -/
def mkPostNavString (posts : List Post) : String :=
  (posts.foldl (fun acc p => acc ++ postNavItemStr p)
    "<navigation class=\"toyb-nav\"><ul>") ++ "</ul></navigation>"

/-- The index navigation string (source lines 102-109): drafts are skipped
by the `continue`. -/
def mkIndexNavString (posts : List Post) : String :=
  (posts.foldl (fun acc p => if p.isDraft then acc else acc ++ indexNavItemStr p)
    "<navigation><ul class=\"nav\">") ++ "</ul></navigation>"

/-- `postTitleString` (source line 49): the raw title, no escaping. -/
def postTitleString (post : Post) : String := post.title

/-- The pre-computed replacement material of `makePostHTML`, in parsed form.
`navFrag` and `articleFrag` are single nodes because the corresponding
strings always parse to exactly one element; `titleFrag` is the parse of
`postTitleString` (one or more nodes), `dateFrag` the parse of the
`toDateString()` text, and `headFrag` the children of the post's
`<toyb-head>` element (empty when absent, which makes the conditional
append a no-op either way). -/
structure ReplCtx where
  navFrag : Node
  titleFrag : List Node
  dateFrag : List Node
  articleFrag : Node
  headFrag : List Node

/-- The post-mode visitor (source lines 52-94), as a worklist over sibling
lists.  The source iterates a live `childNodes` NodeList while assigning
`outerHTML`; with a replacement fragment `f₀ :: ftail` the node at the
current index becomes `f₀` (skipped by the iterator) and iteration resumes
at `ftail ++ rest`.  An empty fragment removes the node and the iterator
then skips the next sibling, which stays in the output unvisited.  `fuel`
bounds the number of iterator steps: `none` means the traversal has not
finished within `fuel` steps (the source would still be running). -/
def visitList (ctx : ReplCtx) : Nat → List Node → Option (List Node)
  | _, [] => some []
  | 0, _ :: _ => none
  | Nat.succ fuel, c :: rest =>
    match c with
    | .text s => (visitList ctx fuel rest).map (fun r => .text s :: r)
    | .elem t a cs =>
      if t == "toyb-nav" then
        (visitList ctx fuel rest).map (fun r => ctx.navFrag :: r)
      else if t == "title" then
        (visitList ctx fuel rest).map (fun r => Node.elem t a ctx.titleFrag :: r)
      else if t == "toyb-title" then
        match ctx.titleFrag with
        | [] =>
          match rest with
          | [] => some []
          | r0 :: rest2 => (visitList ctx fuel rest2).map (fun r => r0 :: r)
        | f0 :: ftail => (visitList ctx fuel (ftail ++ rest)).map (fun r => f0 :: r)
      else if t == "toyb-date" then
        match ctx.dateFrag with
        | [] =>
          match rest with
          | [] => some []
          | r0 :: rest2 => (visitList ctx fuel rest2).map (fun r => r0 :: r)
        | f0 :: ftail => (visitList ctx fuel (ftail ++ rest)).map (fun r => f0 :: r)
      else if t == "toyb-article" then
        (visitList ctx fuel rest).map (fun r => ctx.articleFrag :: r)
      else if t == "head" then
        match visitList ctx fuel cs with
        | none => none
        | some cs2 =>
          (visitList ctx fuel rest).map (fun r => Node.elem t a (cs2 ++ ctx.headFrag) :: r)
      else
        match visitList ctx fuel cs with
        | none => none
        | some cs2 => (visitList ctx fuel rest).map (fun r => Node.elem t a cs2 :: r)

/-- `visit(postDOM.window.document.documentElement)` (source line 95).  The
document element (always `<html>` for jsdom-parsed templates) has the
document as parent, on which an `outerHTML` assignment would throw, so the
four whole-tag replacement cases are modelled as failure; the remaining
cases mirror the switch. -/
def visitRootElem (ctx : ReplCtx) (fuel : Nat) : Node → Option Node
  | .text s => some (.text s)
  | .elem t a cs =>
    if t == "toyb-nav" || t == "toyb-title" || t == "toyb-date" || t == "toyb-article" then
      none
    else if t == "title" then some (.elem t a ctx.titleFrag)
    else if t == "head" then
      (visitList ctx fuel cs).map (fun cs2 => Node.elem t a (cs2 ++ ctx.headFrag))
    else
      (visitList ctx fuel cs).map (fun cs2 => Node.elem t a cs2)

/-- The index-mode visitor (source lines 110-122): only `toyb-nav` is
recognized; everything else recurses into children. -/
def visitIndexList (nav : Node) : Nat → List Node → Option (List Node)
  | _, [] => some []
  | 0, _ :: _ => none
  | Nat.succ fuel, c :: rest =>
    match c with
    | .text s => (visitIndexList nav fuel rest).map (fun r => .text s :: r)
    | .elem t a cs =>
      if t == "toyb-nav" then
        (visitIndexList nav fuel rest).map (fun r => nav :: r)
      else
        match visitIndexList nav fuel cs with
        | none => none
        | some cs2 => (visitIndexList nav fuel rest).map (fun r => Node.elem t a cs2 :: r)

/-- `visit(indexDOM.window.document.documentElement)` (source line 123). -/
def visitIndexRoot (nav : Node) (fuel : Nat) : Node → Option Node
  | .text s => some (.text s)
  | .elem t a cs =>
    if t == "toyb-nav" then none
    else (visitIndexList nav fuel cs).map (fun cs2 => Node.elem t a cs2)

/-- Parse of one post-page navigation `<li>` (source line 46); the raw
title markup becomes the anchor's children. -/
def postNavLi (p : Post) : Node :=
  .elem "li" "" [.elem "a" (" href=\"./" ++ p.filename ++ "\"") p.titleNodes]

/-- Parse of the post-page navigation string (source lines 44-48): one item
per post, drafts included. -/
def postNavFrag (posts : List Post) : Node :=
  .elem "navigation" " class=\"toyb-nav\"" [.elem "ul" "" (posts.map postNavLi)]

/-- Parse of one index navigation `<li>` (source line 107). -/
def indexNavLi (p : Post) : Node :=
  .elem "li" "" [.elem "a" (" href=\"posts/" ++ p.filename ++ "\"") p.titleNodes]

/-- Parse of the index navigation string (source lines 102-109): drafts are
skipped. -/
def indexNavFrag (posts : List Post) : Node :=
  .elem "navigation" ""
    [.elem "ul" " class=\"nav\"" ((posts.filter (fun p => !p.isDraft)).map indexNavLi)]

/-- The replacement material `makePostHTML` precomputes for one post
(source lines 44-51).  `toDateString` models `Date.prototype.toDateString`. -/
def postReplCtx (toDateString : Int → String) (post : Post) (posts : List Post) : ReplCtx where
  navFrag := postNavFrag posts
  titleFrag := post.titleNodes
  dateFrag := [.text (toDateString post.dateTs)]
  articleFrag := .elem "article" " class=\"toyb-article\"" post.bodyChildren
  headFrag :=
    match post.headEl with
    | some h => childrenN h
    | none => []

mutual
/-- `new JSDOM(templateDOM.window.document.documentElement.outerHTML)`
(source line 43): the clone is a fresh deep copy of the template tree,
built by serialize-then-reparse; modelled as a structural deep copy. -/
def cloneTree : Node → Node
  | .text s => .text s
  | .elem t a cs => .elem t a (cloneList cs)
/-- Deep copy of a child list. -/
def cloneList : List Node → List Node
  | [] => []
  | c :: cs => cloneTree c :: cloneList cs
end

/-- `makePostHTML` (source lines 41-97): clone the template, rewrite the
clone, serialize with a doctype prefix.  `none` when `index` is out of
range (the source loop never lets that happen) or when `fuel` steps do not
finish the traversal. -/
def makePostHTML (toDateString : Int → String) (index : Nat) (posts : List Post)
    (templateRoot : Node) (fuel : Nat) : Option String :=
  match posts[index]? with
  | none => none
  | some post =>
    (visitRootElem (postReplCtx toDateString post posts) fuel (cloneTree templateRoot)).map
      (fun r => "<!DOCTYPE html>" ++ serializeN r)

/-- `makeIndexHTML` (source lines 101-125).  The index template tree is
used directly (it is rendered only once). -/
def makeIndexHTML (posts : List Post) (indexRoot : Node) (fuel : Nat) : Option String :=
  (visitIndexRoot (indexNavFrag posts) fuel indexRoot).map
    (fun r => "<!DOCTYPE html>" ++ serializeN r)

/-- The render loop of `main` (source lines 254-258), threading the post
template tree through the iterations as the one piece of state shared
between renders: each iteration hands the current template tree to
`makePostHTML`, which works on a clone, so the loop returns the tree it was
given. -/
def renderPostsLoop (toDateString : Int → String) (posts : List Post)
    (templateRoot : Node) (fuel : Nat) : List (Option String) × Node :=
  (List.range posts.length).foldl
    (fun acc i => (acc.1 ++ [makePostHTML toDateString i posts acc.2 fuel], acc.2))
    ([], templateRoot)

/-- The comparator handed to `posts.sort` (source lines 248-253), turned
into the boolean "keep the left element first" relation of a stable sort:
the JS comparator keeps `a` before `b` when it returns a value `≤ 0`. -/
def postLe (descending : Bool) (a b : Post) : Bool :=
  if descending then decide (b.dateTs ≤ a.dateTs) else decide (a.dateTs ≤ b.dateTs)

/-- `posts.sort(...)` (source lines 248-253): JS `Array.prototype.sort` is
stable, modelled by the stable `List.mergeSort`. -/
def sortPosts (descending : Bool) (posts : List Post) : List Post :=
  posts.mergeSort (postLe descending)

/-- The post template validation of `main` (source lines 164-174): the
document must contain exactly one `<toyb-article>` element and its
`innerHTML` must be empty. -/
def checkPostTemplate (root : Node) : Except String Unit :=
  if countTagN "toyb-article" root == 1 then
    match findFirstN "toyb-article" root with
    | some a =>
      if innerHTMLN a == "" then .ok ()
      else .error "Post template <toyb-article> tag must have no content."
    | none => .error "Post template must have exactly one <toyb-article> tag."
  else .error "Post template must have exactly one <toyb-article> tag."

/-- The ingest-and-copy loop of `main` (source lines 192-246) restricted to
the in-scope flow: each HTML file either becomes a Post or is copied
verbatim to the posts output area (copies modelled by re-serialization);
a validation error aborts the run.  Non-HTML files and directories are
plumbing outside the modelled core. -/
def ingestFiles (parseDate : String → Option Int) (files : List (String × Node)) :
    Except String (List (String × String) × List Post) :=
  files.foldl
    (fun acc f =>
      match acc with
      | .error e => .error e
      | .ok (outs, posts) =>
        match ingestPost parseDate f.1 f.2 with
        | none => .ok (outs ++ [("posts/" ++ f.1, serializeN f.2)], posts)
        | some (.error e) => .error e
        | some (.ok p) => .ok (outs, posts ++ [p]))
    (.ok ([], []))

/-- Rendering of all posts in order (source lines 254-258), as the list of
(path, content) writes; `none` if any traversal fails to finish in `fuel`
steps. -/
def renderAllPosts (toDateString : Int → String) (posts : List Post)
    (templateRoot : Node) (fuel : Nat) : Option (List (String × String)) :=
  (List.range posts.length).mapM
    (fun i =>
      (makePostHTML toDateString i posts templateRoot fuel).map
        (fun s => ("posts/" ++ (match posts[i]? with | some p => p.filename | none => ""), s)))

/-- The pipeline of `main` (source lines 126-264) over in-memory inputs, in
source order: validate the post template, ingest/copy the post directory
entries, sort, render every post, render the index.  The result collects
the (path, content) writes; `Except.error` is a thrown validation error and
the outer `none` a traversal that never finishes. -/
def mainModel (parseDate : String → Option Int) (toDateString : Int → String)
    (postTemplate indexTemplate : Node) (files : List (String × Node))
    (descending : Bool) (fuel : Nat) :
    Option (Except String (List (String × String))) :=
  match checkPostTemplate postTemplate with
  | .error e => some (.error e)
  | .ok () =>
    match ingestFiles parseDate files with
    | .error e => some (.error e)
    | .ok (outs, posts) =>
      let sorted := sortPosts descending posts
      match renderAllPosts toDateString sorted postTemplate fuel with
      | none => none
      | some postOuts =>
        match makeIndexHTML sorted indexTemplate fuel with
        | none => none
        | some idx => some (.ok (outs ++ postOuts ++ [("index.html", idx)]))

/-- Concatenation of a list of strings. -/
def concatStrs : List String → String
  | [] => ""
  | s :: l => s ++ concatStrs l

/-- A tag the post-mode visitor does not special-case: its switch falls
through to the default recurse-into-children branch. -/
def inertTag (t : String) : Bool :=
  !(t == "toyb-nav" || t == "title" || t == "toyb-title" || t == "toyb-date"
      || t == "toyb-article" || t == "head")

mutual
/-- A subtree all of whose element tags are inert. -/
def inertN : Node → Bool
  | .text _ => true
  | .elem t _ cs => inertTag t && inertL cs
/-- A list of subtrees all of whose element tags are inert. -/
def inertL : List Node → Bool
  | [] => true
  | c :: cs => inertN c && inertL cs
end

mutual
/-- A subtree whose element tags are all inert or `toyb-nav`. -/
def navOnlyN : Node → Bool
  | .text _ => true
  | .elem t _ cs => (inertTag t || t == "toyb-nav") && navOnlyL cs
/-- A list of subtrees whose element tags are all inert or `toyb-nav`. -/
def navOnlyL : List Node → Bool
  | [] => true
  | c :: cs => navOnlyN c && navOnlyL cs
end

mutual
/-- The ideal top-down rewrite replacing every `toyb-nav` occurrence by the
same fragment and discarding its children; used to state what the visitor
computes on nav-only trees. -/
def replaceNavN (nav : Node) : Node → Node
  | .text s => .text s
  | .elem t a cs => if t == "toyb-nav" then nav else .elem t a (replaceNavL nav cs)
/-- `replaceNavN` mapped over a list of subtrees. -/
def replaceNavL (nav : Node) : List Node → List Node
  | [] => []
  | c :: cs => replaceNavN nav c :: replaceNavL nav cs
end

mutual
/-- The ideal single-pass rewrite that treats every inserted replacement
fragment as opaque: each recognized placeholder occurrence is replaced by
its precomputed fragment with its children discarded, a native `title` tag
gets its children replaced, a `head` tag recurses and then appends the head
fragment, and every other tag recurses into its children. -/
def rewriteN (ctx : ReplCtx) : Node → List Node
  | .text s => [.text s]
  | .elem t a cs =>
    if t == "toyb-nav" then [ctx.navFrag]
    else if t == "title" then [.elem t a ctx.titleFrag]
    else if t == "toyb-title" then ctx.titleFrag
    else if t == "toyb-date" then ctx.dateFrag
    else if t == "toyb-article" then [ctx.articleFrag]
    else if t == "head" then [.elem t a (rewriteL ctx cs ++ ctx.headFrag)]
    else [.elem t a (rewriteL ctx cs)]
/-- `rewriteN` over a sibling forest. -/
def rewriteL (ctx : ReplCtx) : List Node → List Node
  | [] => []
  | c :: cs => rewriteN ctx c ++ rewriteL ctx cs
end

mutual
/-- Fuel bound for the worklist traversal: one step per node, plus the size
of the fragment tail spliced into the worklist at each `toyb-title` or
`toyb-date` occurrence. -/
def spliceWeightN (ctx : ReplCtx) : Node → Nat
  | .text _ => 1
  | .elem t _ cs =>
    1 + (if t == "toyb-title" then sizeL ctx.titleFrag.tail
         else if t == "toyb-date" then sizeL ctx.dateFrag.tail else 0)
      + spliceWeightL ctx cs
/-- Total splice weight of a sibling forest. -/
def spliceWeightL (ctx : ReplCtx) : List Node → Nat
  | [] => 0
  | c :: cs => spliceWeightN ctx c + spliceWeightL ctx cs
end

/-- A stand-in for the platform `Date.parse`: parses only `"D"`. -/
def parseDateDemo : String → Option Int := fun s => if s = "D" then some 0 else none

/-- A stand-in for `Date.prototype.toDateString`. -/
def toDateStringDemo : Int → String := fun _ => "Thu Jan 01 1970"

/-- Children of a `<toyb-post>` whose title markup is
`x<toyb-title></toyb-title>` — a legal, non-empty title. -/
def loopCs : List Node :=
  [.elem "toyb-title" "" [.text "x", .elem "toyb-title" "" []],
   .elem "toyb-date" "" [.text "D"]]

/-- The post record that ingesting `loopCs` produces. -/
def loopPost : Post :=
  { filename := "loop.html", title := "x<toyb-title></toyb-title>",
    titleNodes := [.text "x", .elem "toyb-title" "" []], dateTs := 0,
    headEl := none, bodyChildren := [], isDraft := false, isStarred := false }

/-- A valid post template (exactly one empty `<toyb-article>`) that also
contains a `<toyb-title>` placeholder. -/
def loopTemplate : Node :=
  .elem "html" ""
    [.elem "head" "" [],
     .elem "body" "" [.elem "toyb-title" "" [], .elem "toyb-article" "" []]]

/-- The replacement context `makePostHTML` builds for `loopPost`. -/
def loopCtx : ReplCtx := postReplCtx toDateStringDemo loopPost [loopPost]

/-- Children of a `<toyb-post>` whose title markup is
`x<toyb-nav></toyb-nav>` — a legal, non-empty title that parses to a text
node followed by a nav placeholder. -/
def navTitleCs : List Node :=
  [.elem "toyb-title" "" [.text "x", .elem "toyb-nav" "" []],
   .elem "toyb-date" "" [.text "D"]]

/-- The post record that ingesting `navTitleCs` produces. -/
def navTitlePost : Post :=
  mkIngestPost "nav.html"
    (Node.elem "toyb-title" "" [.text "x", .elem "toyb-nav" "" []]) 0 navTitleCs

/-- The replacement context `makePostHTML` builds for `navTitlePost`. -/
def demoNavTitleCtx : ReplCtx := postReplCtx toDateStringDemo navTitlePost [navTitlePost]

/-- Has a direct child carrying `tag` (what a successful `removeChild`
requires, and what makes `eraseFirstDirect` actually drop a child). -/
def hasDirect (tag : String) (cs : List Node) : Bool :=
  cs.any (fun c => match c with | .elem t _ _ => t == tag | .text _ => false)

/-- A post whose title carries raw HTML markup (used as concrete input). -/
def demoTitlePost : Post :=
  { filename := "x.html", title := "<b>Hi</b>",
    titleNodes := [.elem "b" "" [.text "Hi"]], dateTs := 0, headEl := none,
    bodyChildren := [], isDraft := false, isStarred := false }

/-- A post with a head fragment (used as concrete input). -/
def demoHeadPost : Post :=
  { filename := "h.html", title := "T", titleNodes := [.text "T"], dateTs := 0,
    headEl := some (.elem "toyb-head" "" [.elem "meta" " charset=\"utf-8\"" []]),
    bodyChildren := [.text "B"], isDraft := false, isStarred := false }

/-- The replacement context the program builds for `demoHeadPost`. -/
def demoHeadCtx : ReplCtx := postReplCtx toDateStringDemo demoHeadPost [demoHeadPost]

/-- A sibling forest with repeated article placeholders (with and without
unexpected children), a date and a title placeholder, and a nav placeholder
nested inside an inert element (used as concrete input). -/
def demoMixedList : List Node :=
  [.elem "toyb-article" "" [.text "junk"], .elem "toyb-article" "" [],
   .elem "toyb-date" "" [], .elem "toyb-title" "" [.text "old"],
   .text "mid", .elem "p" "" [.elem "toyb-nav" "" []]]

/-- A post template with two article placeholders (used as concrete input). -/
def badTemplate : Node :=
  .elem "html" ""
    [.elem "body" "" [.elem "toyb-article" "" [], .elem "toyb-article" "" []]]

/-- A minimal index template (used as concrete input). -/
def demoIndexTemplate : Node := .elem "html" "" [.elem "body" "" []]

/-- A well-formed post container (used as concrete input). -/
def demoCs5 : List Node :=
  [.elem "toyb-title" "" [.text "Hi"], .elem "toyb-date" "" [.text "D"], .text "body"]

/-- A well-formed post container carrying a draft marker as a direct child
(used as concrete input). -/
def demoCs3 : List Node :=
  [.elem "toyb-title" "" [.text "Hi"], .elem "toyb-date" "" [.text "D"],
   .text "b", .elem "toyb-draft" "" []]

/-- The post record ingesting `demoCs3` produces. -/
def demoPost3 : Post :=
  mkIngestPost "w3.html" (Node.elem "toyb-title" "" [.text "Hi"]) 0 demoCs3

/-- Concrete posts with dates 1, 2, 1 (used as concrete input). -/
def demoPostA : Post :=
  { filename := "a.html", title := "A", titleNodes := [.text "A"], dateTs := 1,
    headEl := none, bodyChildren := [], isDraft := false, isStarred := false }

/-- A second concrete post, dated later than `demoPostA`. -/
def demoPostB : Post := { demoPostA with filename := "b.html", dateTs := 2 }

/-- A third concrete post whose date ties `demoPostA`. -/
def demoPostC : Post := { demoPostA with filename := "c.html", dateTs := 1 }

/-! ### String concatenation helpers for the navigation builders -/

theorem concatStrs_append (a b : List String) :
    concatStrs (a ++ b) = concatStrs a ++ concatStrs b := by
  induction a with
  | nil => simp [concatStrs]
  | cons s l ih => simp [concatStrs, ih, String.append_assoc]

theorem foldl_str_concat {α : Type} (g : α → String) :
    ∀ (l : List α) (init : String),
      l.foldl (fun acc x => acc ++ g x) init = init ++ concatStrs (l.map g) := by
  intro l
  induction l with
  | nil => intro init; simp [concatStrs]
  | cons a l ih =>
    intro init
    simp only [List.foldl_cons, List.map_cons, concatStrs]
    rw [ih, String.append_assoc]

theorem foldl_str_concat_filter {α : Type} (g : α → String) (cond : α → Bool) :
    ∀ (l : List α) (init : String),
      l.foldl (fun acc x => if cond x then acc else acc ++ g x) init
        = init ++ concatStrs ((l.filter (fun x => !cond x)).map g) := by
  intro l
  induction l with
  | nil => intro init; simp [concatStrs]
  | cons a l ih =>
    intro init
    by_cases h : cond a
    · simp only [List.foldl_cons, h, if_pos, List.filter_cons, Bool.not_true,
        Bool.false_eq_true, if_neg, reduceIte]
      rw [ih]
    · simp only [List.foldl_cons, h, List.filter_cons, Bool.not_false, if_true,
        Bool.false_eq_true, reduceIte, List.map_cons, concatStrs]
      rw [ih, String.append_assoc]

/-- C1: The index-mode navigation fragment is the wrapper around one link
item per non-draft post (so it contains no item for any draft), while the
post-mode navigation fragment is the wrapper around one link item per post
of the collection, drafts included. -/
theorem claim1_navigation_draft_visibility (posts : List Post) :
    mkIndexNavString posts
      = "<navigation><ul class=\"nav\">"
        ++ concatStrs ((posts.filter (fun p => !p.isDraft)).map indexNavItemStr)
        ++ "</ul></navigation>"
    ∧ mkPostNavString posts
      = "<navigation class=\"toyb-nav\"><ul>"
        ++ concatStrs (posts.map postNavItemStr)
        ++ "</ul></navigation>" := by
  constructor
  · unfold mkIndexNavString
    rw [foldl_str_concat_filter indexNavItemStr (fun p => p.isDraft) posts]
  · unfold mkPostNavString
    rw [foldl_str_concat postNavItemStr posts]

/-- C10: Post titles and filenames reach the navigation string and the
title replacement strings unescaped: for any post of the collection the
post-mode navigation string contains, verbatim, the item interpolating the
raw filename and raw title, and the title/title-placeholder replacement
string is exactly the raw title. -/
theorem claim10_no_escaping (posts : List Post) (p : Post) (h : p ∈ posts) :
    (∃ s t, mkPostNavString posts
        = s ++ ("<li><a href=\"./" ++ p.filename ++ "\">" ++ p.title ++ "</a></li>") ++ t)
    ∧ postTitleString p = p.title := by
  refine ⟨?_, rfl⟩
  obtain ⟨l1, l2, rfl⟩ := List.append_of_mem h
  refine ⟨"<navigation class=\"toyb-nav\"><ul>" ++ concatStrs (l1.map postNavItemStr),
    concatStrs (l2.map postNavItemStr) ++ "</ul></navigation>", ?_⟩
  unfold mkPostNavString
  rw [foldl_str_concat postNavItemStr]
  simp only [List.map_append, List.map_cons, concatStrs_append, concatStrs]
  unfold postNavItemStr
  simp [String.append_assoc]

/-! ### The visitor on placeholder-free and nav-only trees -/

theorem sizeN_pos (c : Node) : 1 ≤ sizeN c := by
  cases c <;> simp [sizeN]

/-- Splitting an `inertTag` fact into the six tag disequalities. -/
theorem inertTag_spec {t : String} (h : inertTag t = true) :
    (t == "toyb-nav") = false ∧ (t == "title") = false ∧ (t == "toyb-title") = false
      ∧ (t == "toyb-date") = false ∧ (t == "toyb-article") = false
      ∧ (t == "head") = false := by
  simp only [inertTag, Bool.not_eq_true', Bool.or_eq_false_iff] at h
  exact ⟨h.1.1.1.1.1, h.1.1.1.1.2, h.1.1.1.2, h.1.1.2, h.1.2, h.2⟩

mutual
theorem replaceNavN_inert (nav : Node) : ∀ n, inertN n = true → replaceNavN nav n = n
  | .text _, _ => rfl
  | .elem t a cs, h => by
    have h2 : inertTag t = true ∧ inertL cs = true := by
      simpa [inertN, Bool.and_eq_true] using h
    simp [replaceNavN, (inertTag_spec h2.1).1, replaceNavL_inert nav cs h2.2]
theorem replaceNavL_inert (nav : Node) : ∀ l, inertL l = true → replaceNavL nav l = l
  | [], _ => rfl
  | c :: cs, h => by
    have h2 : inertN c = true ∧ inertL cs = true := by
      simpa [inertL, Bool.and_eq_true] using h
    simp [replaceNavL, replaceNavN_inert nav c h2.1, replaceNavL_inert nav cs h2.2]
end

mutual
theorem inert_navOnlyN : ∀ n, inertN n = true → navOnlyN n = true
  | .text _, _ => rfl
  | .elem t a cs, h => by
    have h2 : inertTag t = true ∧ inertL cs = true := by
      simpa [inertN, Bool.and_eq_true] using h
    simp [navOnlyN, h2.1, inert_navOnlyL cs h2.2]
theorem inert_navOnlyL : ∀ l, inertL l = true → navOnlyL l = true
  | [], _ => rfl
  | c :: cs, h => by
    have h2 : inertN c = true ∧ inertL cs = true := by
      simpa [inertL, Bool.and_eq_true] using h
    simp [navOnlyL, inert_navOnlyN c h2.1, inert_navOnlyL cs h2.2]
end

/-- On a nav-only sibling list the visitor finishes within `sizeL l` steps
and computes exactly the ideal nav rewrite. -/
theorem visitList_navOnly (ctx : ReplCtx) :
    ∀ (fuel : Nat) (l : List Node), sizeL l ≤ fuel → navOnlyL l = true →
      visitList ctx fuel l = some (replaceNavL ctx.navFrag l) := by
  intro fuel
  induction fuel with
  | zero =>
    intro l hs _
    cases l with
    | nil => rfl
    | cons c rest =>
      exfalso
      have := sizeN_pos c
      simp [sizeL] at hs
      omega
  | succ n ih =>
    intro l hs hn
    cases l with
    | nil => rfl
    | cons c rest =>
      cases c with
      | text s =>
        have h1 : sizeL rest ≤ n := by simp [sizeL, sizeN] at hs; omega
        have h2 : navOnlyL rest = true := by
          simp only [navOnlyL, Bool.and_eq_true] at hn
          exact hn.2
        simp [visitList, replaceNavL, replaceNavN, ih rest h1 h2]
      | elem t a cs =>
        have h1 : sizeL rest ≤ n := by
          have := sizeN_pos (Node.elem t a cs)
          simp only [sizeL] at hs
          omega
        have h2 : sizeL cs ≤ n := by simp only [sizeL, sizeN] at hs; omega
        have hn2 : navOnlyN (Node.elem t a cs) = true ∧ navOnlyL rest = true := by
          simpa only [navOnlyL, Bool.and_eq_true] using hn
        have hn3 : (inertTag t || (t == "toyb-nav")) = true ∧ navOnlyL cs = true := by
          simpa only [navOnlyN, Bool.and_eq_true] using hn2.1
        by_cases hnav : (t == "toyb-nav") = true
        · simp [visitList, hnav, replaceNavL, replaceNavN, ih rest h1 hn2.2]
        · have hin : inertTag t = true := by
            rcases Bool.or_eq_true_iff.mp hn3.1 with h | h
            · exact h
            · exact absurd h hnav
          obtain ⟨e1, e2, e3, e4, e5, e6⟩ := inertTag_spec hin
          simp [visitList, e1, e2, e3, e4, e5, e6, ih cs h2 hn3.2, ih rest h1 hn2.2,
            replaceNavL, replaceNavN]

/-- On an inert sibling list the visitor is a no-op walk. -/
theorem visitList_inert (ctx : ReplCtx) (fuel : Nat) (l : List Node)
    (hs : sizeL l ≤ fuel) (hi : inertL l = true) :
    visitList ctx fuel l = some l := by
  rw [visitList_navOnly ctx fuel l hs (inert_navOnlyL l hi),
    replaceNavL_inert ctx.navFrag l hi]

theorem spliceWeightN_pos (ctx : ReplCtx) (c : Node) : 1 ≤ spliceWeightN ctx c := by
  cases c with
  | text s => exact le_refl 1
  | elem t a cs =>
    unfold spliceWeightN
    omega

theorem spliceWeightL_append (ctx : ReplCtx) :
    ∀ a b : List Node,
      spliceWeightL ctx (a ++ b) = spliceWeightL ctx a + spliceWeightL ctx b := by
  intro a b
  induction a with
  | nil => simp [spliceWeightL]
  | cons c cs ih =>
    have hc : (c :: cs) ++ b = c :: (cs ++ b) := rfl
    rw [hc]
    simp only [spliceWeightL]
    rw [ih]
    omega

mutual
theorem inert_spliceWeightN (ctx : ReplCtx) :
    ∀ c, inertN c = true → spliceWeightN ctx c = sizeN c
  | .text _, _ => rfl
  | .elem t a cs, h => by
    have h2 : inertTag t = true ∧ inertL cs = true := by
      simpa [inertN, Bool.and_eq_true] using h
    obtain ⟨e1, e2, e3, e4, e5, e6⟩ := inertTag_spec h2.1
    simp [spliceWeightN, e3, e4, sizeN, inert_spliceWeightL ctx cs h2.2]
theorem inert_spliceWeightL (ctx : ReplCtx) :
    ∀ l, inertL l = true → spliceWeightL ctx l = sizeL l
  | [], _ => rfl
  | c :: cs, h => by
    have h2 : inertN c = true ∧ inertL cs = true := by
      simpa [inertL, Bool.and_eq_true] using h
    simp [spliceWeightL, sizeL, inert_spliceWeightN ctx c h2.1,
      inert_spliceWeightL ctx cs h2.2]
end

mutual
theorem rewriteN_inert (ctx : ReplCtx) : ∀ c, inertN c = true → rewriteN ctx c = [c]
  | .text _, _ => rfl
  | .elem t a cs, h => by
    have h2 : inertTag t = true ∧ inertL cs = true := by
      simpa [inertN, Bool.and_eq_true] using h
    obtain ⟨e1, e2, e3, e4, e5, e6⟩ := inertTag_spec h2.1
    simp [rewriteN, e1, e2, e3, e4, e5, e6, rewriteL_inert ctx cs h2.2]
theorem rewriteL_inert (ctx : ReplCtx) : ∀ l, inertL l = true → rewriteL ctx l = l
  | [], _ => rfl
  | c :: cs, h => by
    have h2 : inertN c = true ∧ inertL cs = true := by
      simpa [inertL, Bool.and_eq_true] using h
    simp [rewriteL, rewriteN_inert ctx c h2.1, rewriteL_inert ctx cs h2.2]
end

theorem rewriteL_append (ctx : ReplCtx) :
    ∀ a b : List Node, rewriteL ctx (a ++ b) = rewriteL ctx a ++ rewriteL ctx b := by
  intro a b
  induction a with
  | nil => simp [rewriteL]
  | cons c cs ih => simp [rewriteL, ih]

/-- On any forest, the visitor computes the ideal opaque rewrite within
`spliceWeightL` steps, provided the title and date fragments — the only
fragments whose tails are spliced into the live worklist — are non-empty
and carry no recognized tag after their first node. -/
theorem visitList_rewrite (ctx : ReplCtx)
    (htf1 : ctx.titleFrag.isEmpty = false)
    (htf2 : inertL ctx.titleFrag.tail = true)
    (hdf1 : ctx.dateFrag.isEmpty = false)
    (hdf2 : inertL ctx.dateFrag.tail = true) :
    ∀ (fuel : Nat) (l : List Node), spliceWeightL ctx l ≤ fuel →
      visitList ctx fuel l = some (rewriteL ctx l) := by
  intro fuel
  induction fuel with
  | zero =>
    intro l hs
    cases l with
    | nil => rfl
    | cons c rest =>
      exfalso
      have := spliceWeightN_pos ctx c
      simp only [spliceWeightL] at hs
      omega
  | succ n ih =>
    intro l hs
    cases l with
    | nil => rfl
    | cons c rest =>
      cases c with
      | text str =>
        have h1 : spliceWeightL ctx rest ≤ n := by
          simp only [spliceWeightL, spliceWeightN] at hs
          omega
        simp [visitList, rewriteL, rewriteN, ih rest h1]
      | elem t a cs =>
        have hrest : spliceWeightL ctx rest ≤ n := by
          have hp := spliceWeightN_pos ctx (Node.elem t a cs)
          simp only [spliceWeightL] at hs
          omega
        by_cases h1 : (t == "toyb-nav") = true
        · have ht := beq_iff_eq.mp h1
          subst ht
          simp [visitList, rewriteL, rewriteN, ih rest hrest]
        · by_cases h2 : (t == "title") = true
          · have ht := beq_iff_eq.mp h2
            subst ht
            simp [visitList, rewriteL, rewriteN, ih rest hrest]
          · by_cases h3 : (t == "toyb-title") = true
            · have ht := beq_iff_eq.mp h3
              subst ht
              rcases hft : ctx.titleFrag with _ | ⟨f0, ftail⟩
              · exfalso
                rw [hft] at htf1
                simp at htf1
              · have htail : inertL ftail = true := by
                  rw [hft] at htf2
                  simpa using htf2
                have hsw : spliceWeightN ctx (Node.elem "toyb-title" a cs)
                    = 1 + sizeL ftail + spliceWeightL ctx cs := by
                  simp [spliceWeightN, hft]
                have hW : spliceWeightL ctx (ftail ++ rest) ≤ n := by
                  simp only [spliceWeightL] at hs
                  rw [hsw] at hs
                  rw [spliceWeightL_append, inert_spliceWeightL ctx ftail htail]
                  omega
                simp [visitList, hft, ih (ftail ++ rest) hW, rewriteL, rewriteN,
                  rewriteL_append, rewriteL_inert ctx ftail htail]
            · by_cases h4 : (t == "toyb-date") = true
              · have ht := beq_iff_eq.mp h4
                subst ht
                rcases hft : ctx.dateFrag with _ | ⟨d0, dtail⟩
                · exfalso
                  rw [hft] at hdf1
                  simp at hdf1
                · have htail : inertL dtail = true := by
                    rw [hft] at hdf2
                    simpa using hdf2
                  have hsw : spliceWeightN ctx (Node.elem "toyb-date" a cs)
                      = 1 + sizeL dtail + spliceWeightL ctx cs := by
                    simp [spliceWeightN, hft]
                  have hW : spliceWeightL ctx (dtail ++ rest) ≤ n := by
                    simp only [spliceWeightL] at hs
                    rw [hsw] at hs
                    rw [spliceWeightL_append, inert_spliceWeightL ctx dtail htail]
                    omega
                  simp [visitList, hft, ih (dtail ++ rest) hW, rewriteL, rewriteN,
                    rewriteL_append, rewriteL_inert ctx dtail htail]
              · by_cases h5 : (t == "toyb-article") = true
                · have ht := beq_iff_eq.mp h5
                  subst ht
                  simp [visitList, rewriteL, rewriteN, ih rest hrest]
                · by_cases h6 : (t == "head") = true
                  · have ht := beq_iff_eq.mp h6
                    subst ht
                    have hcs : spliceWeightL ctx cs ≤ n := by
                      simp only [spliceWeightL, spliceWeightN] at hs
                      omega
                    simp [visitList, rewriteL, rewriteN, ih cs hcs, ih rest hrest]
                  · have e1 := Bool.not_eq_true _ ▸ h1
                    have e2 := Bool.not_eq_true _ ▸ h2
                    have e3 := Bool.not_eq_true _ ▸ h3
                    have e4 := Bool.not_eq_true _ ▸ h4
                    have e5 := Bool.not_eq_true _ ▸ h5
                    have e6 := Bool.not_eq_true _ ▸ h6
                    have hcs : spliceWeightL ctx cs ≤ n := by
                      simp only [spliceWeightL, spliceWeightN, e3, e4,
                        Bool.false_eq_true, reduceIte] at hs
                      omega
                    simp [visitList, rewriteL, rewriteN, e1, e2, e3, e4, e5, e6,
                      ih cs hcs, ih rest hrest]

/-- C7 (amended): on any sibling forest — multiple occurrences of the same
placeholder tag included, nested anywhere, with unexpected children or
childless — the visitor finishes and equals the ideal rewrite replacing
every placeholder occurrence independently with the same precomputed
fragment, discarding its children and skipping no occurrence, provided the
spliced title and date fragments are non-empty and reintroduce no
recognized tag after their first node (the navigation, date and article
replacements satisfy this by construction; the title fragment does
whenever the post title parses to a single node). -/
theorem claim7_placeholder_rewrite_amended (ctx : ReplCtx)
    (htf1 : ctx.titleFrag.isEmpty = false)
    (htf2 : inertL ctx.titleFrag.tail = true)
    (hdf1 : ctx.dateFrag.isEmpty = false)
    (hdf2 : inertL ctx.dateFrag.tail = true)
    (l : List Node) :
    ∃ fuel, visitList ctx fuel l = some (rewriteL ctx l) :=
  ⟨spliceWeightL ctx l,
    visitList_rewrite ctx htf1 htf2 hdf1 hdf2 (spliceWeightL ctx l) l (le_refl _)⟩

/-- C7 counterexample: with the legal title `x<toyb-nav></toyb-nav>`, the
replacement of a `toyb-title` occurrence is not the precomputed fragment
verbatim: the live iteration visits the spliced fragment tail and rewrites
the reinserted `toyb-nav` into a navigation element, so the output of two
occurrences differs (already at the top-level tags) from the claimed
occurrence-by-occurrence substitution of the precomputed string. -/
theorem claim7_opaque_replacement_counterexample :
    ingestContainer parseDateDemo "nav.html" navTitleCs = .ok navTitlePost
    ∧ demoNavTitleCtx.titleFrag = [.text "x", .elem "toyb-nav" "" []]
    ∧ visitList demoNavTitleCtx 6
        [.elem "toyb-title" "" [], .elem "toyb-title" "" []]
      = some [.text "x", demoNavTitleCtx.navFrag, .text "x", demoNavTitleCtx.navFrag]
    ∧ ([Node.text "x", demoNavTitleCtx.navFrag,
        .text "x", demoNavTitleCtx.navFrag].map tagOfN)
      ≠ ((demoNavTitleCtx.titleFrag ++ demoNavTitleCtx.titleFrag).map tagOfN) :=
  ⟨rfl, rfl, rfl, by decide⟩

/-- C2: Visiting a `head` element whose children are a `toyb-nav`
placeholder (with arbitrary children) followed by arbitrary inert content
first resolves the placeholder via the same visitor and only then appends
the post's head-fragment: the rendered head holds the navigation fragment,
then the template's own remaining head content, then the appended
head-fragment content, in that order. -/
theorem claim2_head_recursion_order (ctx : ReplCtx) (a na : String)
    (kids os : List Node) (h : inertL os = true) :
    ∃ fuel, visitList ctx fuel [.elem "head" a (.elem "toyb-nav" na kids :: os)]
      = some [.elem "head" a (ctx.navFrag :: (os ++ ctx.headFrag))] := by
  refine ⟨sizeL os + 2, ?_⟩
  have hos : visitList ctx (sizeL os) os = some os :=
    visitList_inert ctx (sizeL os) os (le_refl _) h
  simp [visitList, hos]

/-! ### Template cloning and the render loop -/

mutual
theorem cloneTree_eq : ∀ n, cloneTree n = n
  | .text _ => rfl
  | .elem t a cs => by rw [cloneTree, cloneList_eq cs]
theorem cloneList_eq : ∀ l, cloneList l = l
  | [] => rfl
  | c :: cs => by rw [cloneList, cloneTree_eq c, cloneList_eq cs]
end

theorem renderLoop_foldl (toDS : Int → String) (posts : List Post)
    (template : Node) (fuel : Nat) :
    ∀ (idxs : List Nat) (outs0 : List (Option String)),
      idxs.foldl (fun acc i => (acc.1 ++ [makePostHTML toDS i posts acc.2 fuel], acc.2))
          (outs0, template)
        = (outs0 ++ idxs.map (fun i => makePostHTML toDS i posts template fuel), template) := by
  intro idxs
  induction idxs with
  | nil => intro outs0; simp
  | cons i idxs ih =>
    intro outs0
    simp only [List.foldl_cons, List.map_cons]
    rw [ih]
    simp

/-- C8: Rendering a post works on a fresh clone of the post template tree,
the clone is an exact copy, the template tree that the render loop threads
through its iterations comes out unchanged, and the loop's output for each
post equals an independent fresh render from the original template —
rendering one post never affects another's render. -/
theorem claim8_template_isolation (toDS : Int → String) (posts : List Post)
    (template : Node) (fuel : Nat) :
    cloneTree template = template
    ∧ (renderPostsLoop toDS posts template fuel).2 = template
    ∧ (renderPostsLoop toDS posts template fuel).1
        = (List.range posts.length).map (fun i => makePostHTML toDS i posts template fuel) := by
  refine ⟨cloneTree_eq template, ?_, ?_⟩
  · unfold renderPostsLoop
    rw [renderLoop_foldl toDS posts template fuel (List.range posts.length) []]
  · unfold renderPostsLoop
    rw [renderLoop_foldl toDS posts template fuel (List.range posts.length) []]
    simp

/-! ### A diverging traversal (live NodeList revisits replacement tails) -/

theorem loopCtx_titleFrag :
    loopCtx.titleFrag = [.text "x", .elem "toyb-title" "" []] := rfl

/-- Replacing a `toyb-title` whose replacement fragment reintroduces a
`toyb-title` after its first node makes the live-NodeList iteration revisit
the reinserted placeholder forever: no amount of fuel finishes. -/
theorem loop_diverges_core :
    ∀ (fuel : Nat) (rest : List Node),
      visitList loopCtx fuel (Node.elem "toyb-title" "" [] :: rest) = none := by
  intro fuel
  induction fuel with
  | zero => intro rest; rfl
  | succ n ih =>
    intro rest
    simp [visitList, loopCtx_titleFrag, ih]

theorem loop_diverges_body (fuel : Nat) :
    visitList loopCtx fuel
      [Node.elem "body" "" [.elem "toyb-title" "" [], .elem "toyb-article" "" []]] = none := by
  cases fuel with
  | zero => rfl
  | succ n => simp [visitList, loop_diverges_core]

theorem loop_diverges_children (fuel : Nat) :
    visitList loopCtx fuel
      [Node.elem "head" "" [],
       Node.elem "body" "" [.elem "toyb-title" "" [], .elem "toyb-article" "" []]] = none := by
  cases fuel with
  | zero => rfl
  | succ n => simp [visitList, loop_diverges_body]

/-- C9: A complete, validation-passing input on which the traversal never
terminates: the post parsed from `loopCs` is legal (non-empty title, valid
date), the template is legal (exactly one empty article placeholder), yet
rendering the post fails to finish for every step bound, because the
replacement of the template's `toyb-title` reinserts a `toyb-title` after
the first fragment node, which the live `childNodes` iteration then visits
and replaces again, forever. -/
theorem claim9_divergence :
    ingestContainer parseDateDemo "loop.html" loopCs = .ok loopPost
    ∧ checkPostTemplate loopTemplate = .ok ()
    ∧ ∀ fuel, makePostHTML toDateStringDemo 0 [loopPost] loopTemplate fuel = none := by
  refine ⟨rfl, rfl, ?_⟩
  intro fuel
  have hroot : visitRootElem loopCtx fuel (cloneTree loopTemplate) = none := by
    have hc : cloneTree loopTemplate = loopTemplate := cloneTree_eq loopTemplate
    rw [hc]
    show visitRootElem loopCtx fuel
      (.elem "html" ""
        [.elem "head" "" [],
         .elem "body" "" [.elem "toyb-title" "" [], .elem "toyb-article" "" []]]) = none
    simp [visitRootElem, loop_diverges_children]
  show (visitRootElem loopCtx fuel (cloneTree loopTemplate)).map
      (fun r => "<!DOCTYPE html>" ++ serializeN r) = none
  rw [hroot]
  rfl

/-! ### Ordering policy -/

theorem postLe_trans (d : Bool) :
    ∀ a b c : Post, postLe d a b → postLe d b c → postLe d a c := by
  intro a b c h1 h2
  cases d <;> simp only [postLe, if_true, if_false, decide_eq_true_eq, Bool.false_eq_true,
    reduceIte] at h1 h2 ⊢ <;> omega

theorem postLe_total (d : Bool) : ∀ a b : Post, postLe d a b || postLe d b a := by
  intro a b
  cases d <;> simp only [postLe, Bool.false_eq_true, reduceIte, Bool.or_eq_true,
    decide_eq_true_eq] <;> omega

/-- Stability of the modelled sort: filtering by any predicate on which the
comparator never strictly orders (here: a fixed date value) returns the
pre-sort order. -/
theorem sortPosts_filter_stable (d : Bool) (posts : List Post) (q : Post → Bool)
    (hq : ∀ a b, q a = true → q b = true → postLe d a b = true) :
    (sortPosts d posts).filter q = posts.filter q := by
  have h1 : posts.filter q <+ posts := List.filter_sublist posts
  have hpair : (posts.filter q).Pairwise (fun a b => postLe d a b) := by
    apply List.pairwise_of_forall_mem_list
    intro a ha b hb
    exact hq a b (List.of_mem_filter ha) (List.of_mem_filter hb)
  have h2 : posts.filter q <+ sortPosts d posts :=
    List.sublist_mergeSort (postLe_trans d) (postLe_total d) hpair h1
  have h4 : (posts.filter q).filter q <+ (sortPosts d posts).filter q := h2.filter q
  have h3 : (posts.filter q).filter q = posts.filter q := by
    simp [List.filter_filter]
  rw [h3] at h4
  have h5 : ((sortPosts d posts).filter q).length = (posts.filter q).length :=
    ((List.mergeSort_perm posts (postLe d)).filter q).length_eq
  exact (h4.eq_of_length h5.symm).symm

/-- C6: The sort of the post collection is a stable total order on dates:
both configurations produce date-sorted permutations of the input
(nonincreasing for the default descending configuration, nondecreasing for
ascending); with no tied dates the descending result is exactly the
reverse of the ascending result; and for any date value the posts carrying
it keep their pre-sort relative order in both configurations. -/
theorem claim6_sort_order_stability (posts : List Post) :
    (∀ d : Bool, sortPosts d posts ~ posts)
    ∧ (sortPosts true posts).Pairwise (fun a b : Post => b.dateTs ≤ a.dateTs)
    ∧ (sortPosts false posts).Pairwise (fun a b : Post => a.dateTs ≤ b.dateTs)
    ∧ ((posts.map Post.dateTs).Nodup →
        sortPosts true posts = (sortPosts false posts).reverse)
    ∧ (∀ (d : Bool) (t : Int),
        (sortPosts d posts).filter (fun p => p.dateTs == t)
          = posts.filter (fun p => p.dateTs == t)) := by
  have sortedD : (sortPosts true posts).Pairwise (fun a b : Post => b.dateTs ≤ a.dateTs) := by
    have h := List.sorted_mergeSort (postLe_trans true) (postLe_total true) posts
    exact h.imp (fun hab => by
      simpa only [postLe, reduceIte, decide_eq_true_eq] using hab)
  have sortedA : (sortPosts false posts).Pairwise (fun a b : Post => a.dateTs ≤ b.dateTs) := by
    have h := List.sorted_mergeSort (postLe_trans false) (postLe_total false) posts
    exact h.imp (fun hab => by
      simpa only [postLe, Bool.false_eq_true, reduceIte, decide_eq_true_eq] using hab)
  refine ⟨fun d => List.mergeSort_perm posts (postLe d), sortedD, sortedA, ?_, ?_⟩
  · intro hnd
    have permA : sortPosts false posts ~ posts := List.mergeSort_perm posts (postLe false)
    have permD : sortPosts true posts ~ posts := List.mergeSort_perm posts (postLe true)
    have permDrev : (sortPosts true posts).reverse ~ posts :=
      (List.reverse_perm (sortPosts true posts)).trans permD
    have key : ∀ (l : List Post), l ~ posts →
        l.Pairwise (fun a b : Post => a.dateTs ≤ b.dateTs) →
        l.Pairwise (fun a b : Post => a.dateTs < b.dateTs) := by
      intro l hperm hle
      have hnodup : (l.map Post.dateTs).Nodup := ((hperm.map Post.dateTs).nodup_iff).mpr hnd
      have hne : l.Pairwise (fun a b : Post => a.dateTs ≠ b.dateTs) := by
        rw [List.Nodup, List.pairwise_map] at hnodup
        exact hnodup
      exact (hle.and hne).imp (fun h => lt_of_le_of_ne h.1 h.2)
    have sA : (sortPosts false posts).Pairwise (fun a b : Post => a.dateTs < b.dateTs) :=
      key _ permA sortedA
    have sDrev : (sortPosts true posts).reverse.Pairwise
        (fun a b : Post => a.dateTs < b.dateTs) := by
      apply key _ permDrev
      rw [List.pairwise_reverse]
      exact sortedD
    haveI : IsAntisymm Post (fun a b : Post => a.dateTs < b.dateTs) :=
      ⟨fun a b h1 h2 => absurd h1 (lt_asymm h2)⟩
    have heq : (sortPosts true posts).reverse = sortPosts false posts :=
      List.eq_of_perm_of_sorted (permDrev.trans permA.symm) sDrev sA
    have := congrArg List.reverse heq
    rwa [List.reverse_reverse] at this
  · intro d t
    apply sortPosts_filter_stable
    intro a b ha hb
    have ha2 : a.dateTs = t := by simpa using ha
    have hb2 : b.dateTs = t := by simpa using hb
    cases d <;> simp [postLe, ha2, hb2]

/-! ### Error messages are pairwise distinct -/

theorem titleErr_ne_dateErr (f : String) : titleErrMsg f ≠ dateErrMsg f := by
  intro h
  have h2 := congrArg String.data h
  simp only [titleErrMsg, dateErrMsg, String.data_append] at h2
  exact absurd (List.append_cancel_left h2) (by decide)

theorem titleErr_ne_notFound (f : String) : titleErrMsg f ≠ notFoundErr := by
  intro h
  have h2 := congrArg String.length h
  simp only [titleErrMsg, notFoundErr, String.length_append] at h2
  have e1 : ("Post with input file " : String).length = 21 := by decide
  have e2 : (" must have a non-empty <toyb-title> tag" : String).length = 39 := by decide
  have e3 : ("NotFoundError" : String).length = 13 := by decide
  omega

theorem dateErr_ne_notFound (f : String) : dateErrMsg f ≠ notFoundErr := by
  intro h
  have h2 := congrArg String.length h
  simp only [dateErrMsg, notFoundErr, String.length_append] at h2
  have e1 : ("Post with input file " : String).length = 21 := by decide
  have e2 : (" must have a valid <toyb-date> tag" : String).length = 34 := by decide
  have e3 : ("NotFoundError" : String).length = 13 := by decide
  omega

/-! ### Template validation precedes everything (C4) -/

/-- C4: Loading the post template fails exactly when the document does not
contain exactly one `toyb-article` element with empty content; and when it
fails, the whole pipeline stops with that same error, whatever the post
directory holds — no post is ingested and no output entry is produced. -/
theorem claim4_template_check (postT : Node) :
    (checkPostTemplate postT = Except.ok ()
      ↔ (countTagN "toyb-article" postT = 1
          ∧ ∃ a, findFirstN "toyb-article" postT = some a ∧ innerHTMLN a = ""))
    ∧ (∀ e, checkPostTemplate postT = Except.error e →
        ∀ parseDate toDS indexT files descending fuel,
          mainModel parseDate toDS postT indexT files descending fuel
            = some (Except.error e)) := by
  constructor
  · constructor
    · intro h
      unfold checkPostTemplate at h
      split at h
      · rename_i hcnt
        split at h
        · rename_i a ha
          split at h
          · rename_i hemp
            exact ⟨by simpa using hcnt, a, ha, by simpa using hemp⟩
          · exact absurd h (by simp)
        · exact absurd h (by simp)
      · exact absurd h (by simp)
    · rintro ⟨h1, a, h2, h3⟩
      unfold checkPostTemplate
      simp [h1, h2, h3]
  · intro e he parseDate toDS indexT files descending fuel
    unfold mainModel
    rw [he]

/-! ### Full case analysis of ingestion (C5, C3) -/

theorem removePhase_eq (fn : String) (tEl : Node) (ts : Int) (cs : List Node) :
    removePhase fn tEl ts cs
      = if goodLoc cs then .ok (mkIngestPost fn tEl ts cs) else .error notFoundErr := by
  unfold removePhase goodLoc
  rcases hl1 : locateStatus "toyb-title" cs with _ | b1
  · simp [hl1]
  · cases b1 with
    | false => simp [hl1]
    | true =>
      rcases hl2 : locateStatus "toyb-date" cs with _ | b2
      · simp [hl1, hl2]
      · cases b2 with
        | false => simp [hl1, hl2]
        | true =>
          rcases hh : findFirstL "toyb-head" cs with _ | hEl
          · simp [hl1, hl2, hh]
          · rcases hl3 : locateStatus "toyb-head" cs with _ | b3
            · simp [hl1, hl2, hh, hl3]
            · cases b3 <;> simp [hl1, hl2, hh, hl3]

/-- Exhaustive description of what `ingestContainer` returns, following the
source's check order. -/
theorem ingest_cases (pd : String → Option Int) (fn : String) (cs : List Node) :
    (findFirstL "toyb-title" cs = none
      ∧ ingestContainer pd fn cs = .error (titleErrMsg fn))
    ∨ (∃ tEl, findFirstL "toyb-title" cs = some tEl ∧ innerHTMLN tEl = ""
        ∧ ingestContainer pd fn cs = .error (titleErrMsg fn))
    ∨ (∃ tEl, findFirstL "toyb-title" cs = some tEl ∧ innerHTMLN tEl ≠ ""
        ∧ pd (dateTextOfCs cs) = none
        ∧ ingestContainer pd fn cs = .error (dateErrMsg fn))
    ∨ (∃ tEl ts, findFirstL "toyb-title" cs = some tEl ∧ innerHTMLN tEl ≠ ""
        ∧ pd (dateTextOfCs cs) = some ts ∧ goodLoc cs = false
        ∧ ingestContainer pd fn cs = .error notFoundErr)
    ∨ (∃ tEl ts, findFirstL "toyb-title" cs = some tEl ∧ innerHTMLN tEl ≠ ""
        ∧ pd (dateTextOfCs cs) = some ts ∧ goodLoc cs = true
        ∧ ingestContainer pd fn cs = .ok (mkIngestPost fn tEl ts cs)) := by
  rcases hfind : findFirstL "toyb-title" cs with _ | tEl
  · exact Or.inl ⟨rfl, by unfold ingestContainer; rw [hfind]⟩
  · by_cases hemp : innerHTMLN tEl = ""
    · refine Or.inr (Or.inl ⟨tEl, rfl, hemp, ?_⟩)
      unfold ingestContainer
      rw [hfind]
      simp [hemp]
    · rcases hpd2 : pd (dateTextOfCs cs) with _ | ts
      · refine Or.inr (Or.inr (Or.inl ⟨tEl, rfl, hemp, rfl, ?_⟩))
        unfold ingestContainer
        rw [hfind]
        simp [hemp, hpd2]
      · have hres : ingestContainer pd fn cs = removePhase fn tEl ts cs := by
          unfold ingestContainer
          rw [hfind]
          simp [hemp, hpd2]
        by_cases hg : goodLoc cs = true
        · refine Or.inr (Or.inr (Or.inr (Or.inr ⟨tEl, ts, rfl, hemp, rfl, hg, ?_⟩)))
          rw [hres, removePhase_eq, if_pos hg]
        · refine Or.inr (Or.inr (Or.inr (Or.inl ⟨tEl, ts, rfl, hemp, rfl,
            Bool.not_eq_true _ ▸ hg, ?_⟩)))
          rw [hres, removePhase_eq, if_neg hg]

theorem ingest_title_error_iff (pd : String → Option Int) (fn : String) (cs : List Node) :
    ingestContainer pd fn cs = .error (titleErrMsg fn)
      ↔ (findFirstL "toyb-title" cs = none
          ∨ ∃ tEl, findFirstL "toyb-title" cs = some tEl ∧ innerHTMLN tEl = "") := by
  have hrhs : ∀ tEl, findFirstL "toyb-title" cs = some tEl → innerHTMLN tEl ≠ "" →
      ¬(findFirstL "toyb-title" cs = none
        ∨ ∃ tEl2, findFirstL "toyb-title" cs = some tEl2 ∧ innerHTMLN tEl2 = "") := by
    rintro tEl h1 h2 (hn | ⟨tEl2, he, hemp⟩)
    · rw [h1] at hn
      cases hn
    · rw [h1] at he
      injection he with he2
      exact h2 (he2 ▸ hemp)
  rcases ingest_cases pd fn cs with ⟨h1, h2⟩ | ⟨tEl, h1, h2, h3⟩
    | ⟨tEl, h1, h2, h3, h4⟩ | ⟨tEl, ts, h1, h2, h3, h4, h5⟩ | ⟨tEl, ts, h1, h2, h3, h4, h5⟩
  · exact iff_of_true h2 (Or.inl h1)
  · exact iff_of_true h3 (Or.inr ⟨tEl, h1, h2⟩)
  · refine iff_of_false ?_ (hrhs tEl h1 h2)
    rw [h4]
    intro hcon
    injection hcon with hcon2
    exact titleErr_ne_dateErr fn hcon2.symm
  · refine iff_of_false ?_ (hrhs tEl h1 h2)
    rw [h5]
    intro hcon
    injection hcon with hcon2
    exact titleErr_ne_notFound fn hcon2.symm
  · refine iff_of_false ?_ (hrhs tEl h1 h2)
    rw [h5]
    intro hcon
    cases hcon

theorem ingest_date_error_iff (pd : String → Option Int) (fn : String) (cs : List Node) :
    ingestContainer pd fn cs = .error (dateErrMsg fn)
      ↔ ((∃ tEl, findFirstL "toyb-title" cs = some tEl ∧ innerHTMLN tEl ≠ "")
          ∧ pd (dateTextOfCs cs) = none) := by
  rcases ingest_cases pd fn cs with ⟨h1, h2⟩ | ⟨tEl, h1, h2, h3⟩
    | ⟨tEl, h1, h2, h3, h4⟩ | ⟨tEl, ts, h1, h2, h3, h4, h5⟩ | ⟨tEl, ts, h1, h2, h3, h4, h5⟩
  · refine iff_of_false ?_ ?_
    · rw [h2]
      intro hcon
      injection hcon with hcon2
      exact titleErr_ne_dateErr fn hcon2
    · rintro ⟨⟨tEl2, he, _⟩, _⟩
      rw [h1] at he
      cases he
  · refine iff_of_false ?_ ?_
    · rw [h3]
      intro hcon
      injection hcon with hcon2
      exact titleErr_ne_dateErr fn hcon2
    · rintro ⟨⟨tEl2, he, hne⟩, _⟩
      rw [h1] at he
      injection he with he2
      exact hne (he2 ▸ h2)
  · exact iff_of_true h4 ⟨⟨tEl, h1, h2⟩, h3⟩
  · refine iff_of_false ?_ ?_
    · rw [h5]
      intro hcon
      injection hcon with hcon2
      exact dateErr_ne_notFound fn hcon2.symm
    · rintro ⟨_, hnone⟩
      rw [h3] at hnone
      cases hnone
  · refine iff_of_false ?_ ?_
    · rw [h5]
      intro hcon
      cases hcon
    · rintro ⟨_, hnone⟩
      rw [h3] at hnone
      cases hnone

theorem ingest_remove_cases (pd : String → Option Int) (fn : String) (cs : List Node)
    (tEl : Node) (ts : Int) (h1 : findFirstL "toyb-title" cs = some tEl)
    (h2 : innerHTMLN tEl ≠ "") (h3 : pd (dateTextOfCs cs) = some ts) :
    (goodLoc cs = true → ingestContainer pd fn cs = .ok (mkIngestPost fn tEl ts cs))
    ∧ (goodLoc cs = false → ingestContainer pd fn cs = .error notFoundErr) := by
  rcases ingest_cases pd fn cs with ⟨hf, _⟩ | ⟨tEl2, hf, hemp, _⟩
    | ⟨tEl2, hf, _, hnone, _⟩ | ⟨tEl2, ts2, hf, _, hsome, hg, hres⟩
    | ⟨tEl2, ts2, hf, _, hsome, hg, hres⟩
  · rw [h1] at hf
    cases hf
  · rw [h1] at hf
    injection hf with hf2
    exact absurd (hf2 ▸ hemp) h2
  · rw [h3] at hnone
    cases hnone
  · constructor
    · intro hg2
      rw [hg2] at hg
      cases hg
    · intro _
      exact hres
  · constructor
    · intro _
      rw [h3] at hsome
      injection hsome with hsome2
      rw [h1] at hf
      injection hf with hf2
      rw [hf2, hsome2]
      exact hres
    · intro hg2
      rw [hg2] at hg
      cases hg

theorem dateText_none_iff (pd : String → Option Int) (hpd : pd "" = none)
    (cs : List Node) :
    pd (dateTextOfCs cs) = none
      ↔ (findFirstL "toyb-date" cs = none
          ∨ ∃ dEl, findFirstL "toyb-date" cs = some dEl ∧ pd (innerHTMLN dEl) = none) := by
  unfold dateTextOfCs
  rcases h : findFirstL "toyb-date" cs with _ | dEl
  · simp [hpd]
  · simp

theorem goodLoc_iff (cs : List Node) :
    goodLoc cs = true
      ↔ (locateStatus "toyb-title" cs = some true
          ∧ locateStatus "toyb-date" cs = some true
          ∧ (findFirstL "toyb-head" cs = none
              ∨ locateStatus "toyb-head" cs = some true)) := by
  unfold goodLoc
  rcases h : findFirstL "toyb-head" cs with _ | hEl
  · simp
  · simp

/-- C5 (amended): ingestion of a post container fails with the title error
exactly when the title sub-tag is absent or its content serializes to the
empty string (no trimming — whitespace-only titles pass); it fails with
the date error exactly when the title check passed and the date sub-tag is
absent or its content does not parse; and when both checks pass, ingestion
succeeds with the extracted Post record provided the located title, date
and (if present) head elements are direct children of the container, and
fails with the `removeChild` NotFound error otherwise. -/
theorem claim5_ingest_errors_amended (parseDate : String → Option Int)
    (hpd : parseDate "" = none) (filename : String) (cs : List Node) :
    (ingestContainer parseDate filename cs = .error (titleErrMsg filename)
      ↔ (findFirstL "toyb-title" cs = none
          ∨ ∃ tEl, findFirstL "toyb-title" cs = some tEl ∧ innerHTMLN tEl = ""))
    ∧ (ingestContainer parseDate filename cs = .error (dateErrMsg filename)
      ↔ ((∃ tEl, findFirstL "toyb-title" cs = some tEl ∧ innerHTMLN tEl ≠ "")
          ∧ (findFirstL "toyb-date" cs = none
              ∨ ∃ dEl, findFirstL "toyb-date" cs = some dEl
                  ∧ parseDate (innerHTMLN dEl) = none)))
    ∧ (∀ tEl ts, findFirstL "toyb-title" cs = some tEl → innerHTMLN tEl ≠ "" →
        parseDate (dateTextOfCs cs) = some ts →
        ((locateStatus "toyb-title" cs = some true
            ∧ locateStatus "toyb-date" cs = some true
            ∧ (findFirstL "toyb-head" cs = none
                ∨ locateStatus "toyb-head" cs = some true))
          → ingestContainer parseDate filename cs
              = .ok (mkIngestPost filename tEl ts cs))
        ∧ (¬(locateStatus "toyb-title" cs = some true
            ∧ locateStatus "toyb-date" cs = some true
            ∧ (findFirstL "toyb-head" cs = none
                ∨ locateStatus "toyb-head" cs = some true))
          → ingestContainer parseDate filename cs = .error notFoundErr)) := by
  refine ⟨ingest_title_error_iff parseDate filename cs, ?_, ?_⟩
  · exact (ingest_date_error_iff parseDate filename cs).trans
      (and_congr_right fun _ => dateText_none_iff parseDate hpd cs)
  · intro tEl ts h1 h2 h3
    constructor
    · intro hc
      exact (ingest_remove_cases parseDate filename cs tEl ts h1 h2 h3).1
        ((goodLoc_iff cs).mpr hc)
    · intro hc
      refine (ingest_remove_cases parseDate filename cs tEl ts h1 h2 h3).2 ?_
      rcases hb : goodLoc cs with _ | _
      · rfl
      · exact absurd ((goodLoc_iff cs).mp hb) hc

/-- C5 counterexample: on the empty container both the title and the date
sub-tags are absent, yet ingestion fails with the *title* error and not
with the date error — refuting the claim's "fails with a date error if and
only if the date sub-tag is absent or unparseable". -/
theorem claim5_error_precedence_counterexample :
    findFirstL "toyb-date" ([] : List Node) = none
    ∧ ingestContainer parseDateDemo "a.html" [] = .error (titleErrMsg "a.html")
    ∧ ingestContainer parseDateDemo "a.html" [] ≠ .error (dateErrMsg "a.html") := by
  refine ⟨rfl, rfl, ?_⟩
  intro h
  have h2 : (Except.error (titleErrMsg "a.html") : Except String Post)
      = .error (dateErrMsg "a.html") := h
  injection h2 with h3
  exact titleErr_ne_dateErr "a.html" h3

/-! ### Body stripping preserves everything but the removed sub-tags (C3) -/

theorem eraseFirstDirect_sublist (tag : String) :
    ∀ cs : List Node, (eraseFirstDirect tag cs).Sublist cs := by
  intro cs
  induction cs with
  | nil => exact List.Sublist.refl []
  | cons c rest ih =>
    cases c with
    | text s => exact (ih.cons₂ (Node.text s))
    | elem t a k =>
      by_cases h : (t == tag) = true
      · simp only [eraseFirstDirect, h, if_pos]
        exact List.sublist_cons_self (Node.elem t a k) rest
      · simp only [eraseFirstDirect, h, Bool.false_eq_true, if_neg, reduceIte]
        exact (ih.cons₂ (Node.elem t a k))

theorem locateStatus_hasDirect (tag : String) :
    ∀ cs : List Node, locateStatus tag cs = some true → hasDirect tag cs = true := by
  intro cs
  induction cs with
  | nil => intro h; cases h
  | cons c rest ih =>
    cases c with
    | text s =>
      intro h
      simp only [locateStatus] at h
      have h2 := ih h
      simp only [hasDirect, List.any_cons] at h2 ⊢
      simp [h2]
    | elem t a k =>
      intro h
      simp only [locateStatus] at h
      by_cases h1 : (t == tag) = true
      · simp [hasDirect, List.any_cons, h1]
      · simp only [h1, Bool.false_eq_true, reduceIte] at h
        by_cases h2 : hasTagL tag k = true
        · simp [h2] at h
        · simp only [h2, Bool.false_eq_true, reduceIte] at h
          have h3 := ih h
          simp only [hasDirect, List.any_cons] at h3 ⊢
          simp [h3]

theorem length_eraseFirstDirect (tag : String) :
    ∀ cs : List Node, hasDirect tag cs = true →
      (eraseFirstDirect tag cs).length + 1 = cs.length := by
  intro cs
  induction cs with
  | nil => intro h; cases h
  | cons c rest ih =>
    cases c with
    | text s =>
      intro h
      have h2 : hasDirect tag rest = true := by simpa [hasDirect, List.any_cons] using h
      simp only [eraseFirstDirect, List.length_cons]
      rw [← ih h2]
    | elem t a k =>
      intro h
      by_cases h1 : (t == tag) = true
      · simp [eraseFirstDirect, h1]
      · have h2 : hasDirect tag rest = true := by
          simpa [hasDirect, List.any_cons, h1] using h
        simp only [eraseFirstDirect, h1, Bool.false_eq_true, reduceIte, List.length_cons]
        rw [← ih h2]

theorem hasDirect_erase_other (tag1 tag2 : String) (hne : tag1 ≠ tag2) :
    ∀ cs : List Node, hasDirect tag2 (eraseFirstDirect tag1 cs) = hasDirect tag2 cs := by
  intro cs
  induction cs with
  | nil => rfl
  | cons c rest ih =>
    simp only [hasDirect] at ih
    cases c with
    | text s =>
      simp only [eraseFirstDirect, hasDirect, List.any_cons]
      rw [ih]
    | elem t a k =>
      by_cases h1 : (t == tag1) = true
      · have h2 : (t == tag2) = false := by
          have h3 := beq_iff_eq.mp h1
          subst h3
          exact beq_eq_false_iff_ne.mpr hne
        simp only [eraseFirstDirect, h1, if_pos, hasDirect, List.any_cons, h2,
          Bool.false_or]
      · simp only [eraseFirstDirect, h1, Bool.false_eq_true, reduceIte, hasDirect,
          List.any_cons]
        rw [ih]

theorem hasTagL_erase_preserved (tag m : String) (hne : tag ≠ m) :
    ∀ cs : List Node,
      (∀ c ∈ cs, tagOfN c = some tag → hasTagL m (childrenN c) = false) →
      hasTagL m (eraseFirstDirect tag cs) = hasTagL m cs := by
  intro cs
  induction cs with
  | nil => intro _; rfl
  | cons c rest ih =>
    intro hm
    have hmrest : ∀ c ∈ rest, tagOfN c = some tag → hasTagL m (childrenN c) = false :=
      fun c hc => hm c (List.mem_cons_of_mem _ hc)
    cases c with
    | text s =>
      simp only [eraseFirstDirect, hasTagL, hasTagN]
      rw [ih hmrest]
    | elem t a k =>
      by_cases h1 : (t == tag) = true
      · have ht : t = tag := beq_iff_eq.mp h1
        have hk : hasTagL m k = false := by
          have := hm (Node.elem t a k) (List.mem_cons_self _ _) (by simp [tagOfN, ht])
          simpa [childrenN] using this
        have htm : (t == m) = false := by
          subst ht
          exact beq_eq_false_iff_ne.mpr hne
        simp only [eraseFirstDirect, h1, if_pos, hasTagL, hasTagN, htm, hk,
          Bool.false_or, reduceIte]
      · simp only [eraseFirstDirect, h1, Bool.false_eq_true, reduceIte, hasTagL]
        rw [ih hmrest]

theorem ingest_ok_inv (pd : String → Option Int) (fn : String) (cs : List Node)
    (p : Post) (h : ingestContainer pd fn cs = .ok p) :
    ∃ tEl ts, findFirstL "toyb-title" cs = some tEl ∧ innerHTMLN tEl ≠ ""
      ∧ pd (dateTextOfCs cs) = some ts ∧ goodLoc cs = true
      ∧ p = mkIngestPost fn tEl ts cs := by
  rcases ingest_cases pd fn cs with ⟨_, h2⟩ | ⟨tEl, _, _, h3⟩ | ⟨tEl, _, _, _, h4⟩
    | ⟨tEl, ts, _, _, _, _, h5⟩ | ⟨tEl, ts, hf, hne, hs, hg, h5⟩
  · rw [h] at h2
    cases h2
  · rw [h] at h3
    cases h3
  · rw [h] at h4
    cases h4
  · rw [h] at h5
    cases h5
  · refine ⟨tEl, ts, hf, hne, hs, hg, ?_⟩
    rw [h] at h5
    injection h5

/-- C3 (amended): a successfully ingested post's body — the content that
rendering wraps into the article container — is the original container
content minus exactly the removed title, date and (when present) head
direct children: it is a sublist of the original children, exactly two or
three children shorter; and since the draft/star markers are never
themselves removal targets, whenever the removed title/date/head sub-trees
contain no marker tags the body's draft and star marker occurrences are
exactly the original container's, and the post's flags are computed from
the stripped body. -/
theorem claim3_body_strip_amended (pd : String → Option Int) (fn : String)
    (cs : List Node) (p : Post) (h : ingestContainer pd fn cs = .ok p)
    (hm : ∀ c ∈ cs,
        (tagOfN c = some "toyb-title" ∨ tagOfN c = some "toyb-date"
          ∨ tagOfN c = some "toyb-head") →
        hasTagL "toyb-draft" (childrenN c) = false
          ∧ hasTagL "toyb-star" (childrenN c) = false) :
    (∀ toDS posts, (postReplCtx toDS p posts).articleFrag
        = Node.elem "article" " class=\"toyb-article\"" p.bodyChildren)
    ∧ p.bodyChildren = stripBody cs
    ∧ p.bodyChildren.Sublist cs
    ∧ cs.length = p.bodyChildren.length + (if p.headEl.isSome then 3 else 2)
    ∧ hasTagL "toyb-draft" p.bodyChildren = hasTagL "toyb-draft" cs
    ∧ hasTagL "toyb-star" p.bodyChildren = hasTagL "toyb-star" cs
    ∧ p.isDraft = hasTagL "toyb-draft" p.bodyChildren
    ∧ p.isStarred = hasTagL "toyb-star" p.bodyChildren := by
  obtain ⟨tEl, ts, hf, hne, hs, hg, rfl⟩ := ingest_ok_inv pd fn cs p h
  obtain ⟨hg1, hg2, hg3⟩ := (goodLoc_iff cs).mp hg
  have hsub : (stripBody cs).Sublist cs := by
    unfold stripBody
    rcases hh : findFirstL "toyb-head" cs with _ | hEl
    · exact (eraseFirstDirect_sublist "toyb-date" _).trans
        (eraseFirstDirect_sublist "toyb-title" cs)
    · exact ((eraseFirstDirect_sublist "toyb-head" _).trans
        (eraseFirstDirect_sublist "toyb-date" _)).trans
        (eraseFirstDirect_sublist "toyb-title" cs)
  have hdT : hasDirect "toyb-title" cs = true := locateStatus_hasDirect _ cs hg1
  have hdD : hasDirect "toyb-date" cs = true := locateStatus_hasDirect _ cs hg2
  have l1 : (eraseFirstDirect "toyb-title" cs).length + 1 = cs.length :=
    length_eraseFirstDirect _ cs hdT
  have hdD1 : hasDirect "toyb-date" (eraseFirstDirect "toyb-title" cs) = true := by
    rw [hasDirect_erase_other "toyb-title" "toyb-date" (by decide)]
    exact hdD
  have l2 : (eraseFirstDirect "toyb-date" (eraseFirstDirect "toyb-title" cs)).length + 1
      = (eraseFirstDirect "toyb-title" cs).length :=
    length_eraseFirstDirect _ _ hdD1
  have hmT : ∀ c ∈ cs, tagOfN c = some "toyb-title" →
      hasTagL "toyb-draft" (childrenN c) = false
        ∧ hasTagL "toyb-star" (childrenN c) = false :=
    fun c hc ht => hm c hc (Or.inl ht)
  have hmD : ∀ c ∈ eraseFirstDirect "toyb-title" cs, tagOfN c = some "toyb-date" →
      hasTagL "toyb-draft" (childrenN c) = false
        ∧ hasTagL "toyb-star" (childrenN c) = false :=
    fun c hc ht => hm c ((eraseFirstDirect_sublist "toyb-title" cs).subset hc)
      (Or.inr (Or.inl ht))
  have hmH : ∀ c ∈ eraseFirstDirect "toyb-date" (eraseFirstDirect "toyb-title" cs),
      tagOfN c = some "toyb-head" →
      hasTagL "toyb-draft" (childrenN c) = false
        ∧ hasTagL "toyb-star" (childrenN c) = false :=
    fun c hc ht => hm c
      ((eraseFirstDirect_sublist "toyb-title" cs).subset
        ((eraseFirstDirect_sublist "toyb-date" _).subset hc))
      (Or.inr (Or.inr ht))
  have hmark : ∀ m : String, m = "toyb-draft" ∨ m = "toyb-star" →
      hasTagL m (stripBody cs) = hasTagL m cs := by
    intro m hmm
    have hneT : "toyb-title" ≠ m := by rcases hmm with rfl | rfl <;> decide
    have hneD : "toyb-date" ≠ m := by rcases hmm with rfl | rfl <;> decide
    have hneH : "toyb-head" ≠ m := by rcases hmm with rfl | rfl <;> decide
    have e1 : hasTagL m (eraseFirstDirect "toyb-title" cs) = hasTagL m cs :=
      hasTagL_erase_preserved _ m hneT cs
        (fun c hc ht => by rcases hmm with rfl | rfl
                           exacts [(hmT c hc ht).1, (hmT c hc ht).2])
    have e2 : hasTagL m (eraseFirstDirect "toyb-date" (eraseFirstDirect "toyb-title" cs))
        = hasTagL m (eraseFirstDirect "toyb-title" cs) :=
      hasTagL_erase_preserved _ m hneD _
        (fun c hc ht => by rcases hmm with rfl | rfl
                           exacts [(hmD c hc ht).1, (hmD c hc ht).2])
    unfold stripBody
    rcases hh : findFirstL "toyb-head" cs with _ | hEl
    · rw [e2, e1]
    · have e3 : hasTagL m (eraseFirstDirect "toyb-head"
          (eraseFirstDirect "toyb-date" (eraseFirstDirect "toyb-title" cs)))
          = hasTagL m (eraseFirstDirect "toyb-date" (eraseFirstDirect "toyb-title" cs)) :=
        hasTagL_erase_preserved _ m hneH _
          (fun c hc ht => by rcases hmm with rfl | rfl
                             exacts [(hmH c hc ht).1, (hmH c hc ht).2])
      rw [e3, e2, e1]
  refine ⟨fun toDS posts => rfl, rfl, hsub, ?_, hmark "toyb-draft" (Or.inl rfl),
    hmark "toyb-star" (Or.inr rfl), rfl, rfl⟩
  show cs.length = (stripBody cs).length
    + (if (findFirstL "toyb-head" cs).isSome then 3 else 2)
  rcases hh : findFirstL "toyb-head" cs with _ | hEl
  · have hsb : stripBody cs
        = eraseFirstDirect "toyb-date" (eraseFirstDirect "toyb-title" cs) := by
      unfold stripBody
      rw [hh]
    rw [hsb]
    simp only [Option.isSome_none, Bool.false_eq_true, reduceIte]
    omega
  · have hlocH : locateStatus "toyb-head" cs = some true := by
      rcases hg3 with hn | hl
      · rw [hh] at hn
        cases hn
      · exact hl
    have hdH : hasDirect "toyb-head" cs = true := locateStatus_hasDirect _ cs hlocH
    have hdH2 : hasDirect "toyb-head"
        (eraseFirstDirect "toyb-date" (eraseFirstDirect "toyb-title" cs)) = true := by
      rw [hasDirect_erase_other "toyb-date" "toyb-head" (by decide),
        hasDirect_erase_other "toyb-title" "toyb-head" (by decide)]
      exact hdH
    have l3 : (eraseFirstDirect "toyb-head"
        (eraseFirstDirect "toyb-date" (eraseFirstDirect "toyb-title" cs))).length + 1
        = (eraseFirstDirect "toyb-date" (eraseFirstDirect "toyb-title" cs)).length :=
      length_eraseFirstDirect _ _ hdH2
    have hsb : stripBody cs = eraseFirstDirect "toyb-head"
        (eraseFirstDirect "toyb-date" (eraseFirstDirect "toyb-title" cs)) := by
      unfold stripBody
      rw [hh]
    rw [hsb]
    simp only [Option.isSome_some, reduceIte]
    omega

/-- C3 counterexample: a draft marker nested inside the removed title
sub-tree does not survive extraction — ingestion succeeds, the original
container holds a `toyb-draft` tag, but the rendered body no longer does
(and the post is not even flagged as a draft). -/
theorem claim3_marker_removed_counterexample :
    hasTagL "toyb-draft"
      [Node.elem "toyb-title" "" [.text "t", .elem "toyb-draft" "" []],
       Node.elem "toyb-date" "" [.text "D"]] = true
    ∧ (∃ p, ingestContainer parseDateDemo "f.html"
        [Node.elem "toyb-title" "" [.text "t", .elem "toyb-draft" "" []],
         Node.elem "toyb-date" "" [.text "D"]] = .ok p
        ∧ hasTagL "toyb-draft" p.bodyChildren = false
        ∧ p.isDraft = false) := by
  refine ⟨rfl, ⟨mkIngestPost "f.html"
    (Node.elem "toyb-title" "" [.text "t", .elem "toyb-draft" "" []]) 0
    [Node.elem "toyb-title" "" [.text "t", .elem "toyb-draft" "" []],
     Node.elem "toyb-date" "" [.text "D"]], rfl, rfl, rfl⟩⟩

/-! ### Witnesses at concrete inputs -/

theorem claim2_head_recursion_order_witness :
    inertL [Node.elem "link" " rel=\"stylesheet\"" []] = true
    ∧ ∃ fuel, visitList demoHeadCtx fuel
        [.elem "head" ""
          (.elem "toyb-nav" "" [] :: [Node.elem "link" " rel=\"stylesheet\"" []])]
        = some [.elem "head" ""
            (demoHeadCtx.navFrag
              :: ([Node.elem "link" " rel=\"stylesheet\"" []] ++ demoHeadCtx.headFrag))] :=
  ⟨by decide, claim2_head_recursion_order demoHeadCtx "" "" []
    [Node.elem "link" " rel=\"stylesheet\"" []] (by decide)⟩

theorem claim7_placeholder_rewrite_amended_witness :
    demoHeadCtx.titleFrag.isEmpty = false
    ∧ inertL demoHeadCtx.titleFrag.tail = true
    ∧ demoHeadCtx.dateFrag.isEmpty = false
    ∧ inertL demoHeadCtx.dateFrag.tail = true
    ∧ ∃ fuel, visitList demoHeadCtx fuel demoMixedList
        = some (rewriteL demoHeadCtx demoMixedList) :=
  ⟨by decide, by decide, by decide, by decide,
    claim7_placeholder_rewrite_amended demoHeadCtx (by decide) (by decide)
      (by decide) (by decide) demoMixedList⟩

theorem claim4_template_check_witness :
    checkPostTemplate badTemplate
      = Except.error "Post template must have exactly one <toyb-article> tag."
    ∧ mainModel parseDateDemo toDateStringDemo badTemplate demoIndexTemplate
        [("a.html", Node.text "x")] true 0
      = some (Except.error "Post template must have exactly one <toyb-article> tag.") :=
  ⟨rfl, (claim4_template_check badTemplate).2 _ rfl parseDateDemo toDateStringDemo
    demoIndexTemplate [("a.html", Node.text "x")] true 0⟩

theorem claim5_ingest_errors_amended_witness :
    parseDateDemo "" = none
    ∧ ingestContainer parseDateDemo "w.html" demoCs5
        = .ok (mkIngestPost "w.html" (Node.elem "toyb-title" "" [.text "Hi"]) 0 demoCs5) :=
  ⟨rfl, ((claim5_ingest_errors_amended parseDateDemo rfl "w.html" demoCs5).2.2
      (Node.elem "toyb-title" "" [.text "Hi"]) 0 rfl (by decide) rfl).1
      ⟨rfl, rfl, Or.inl rfl⟩⟩

theorem claim3_body_strip_amended_witness :
    ingestContainer parseDateDemo "w3.html" demoCs3 = .ok demoPost3
    ∧ (∀ c ∈ demoCs3,
        (tagOfN c = some "toyb-title" ∨ tagOfN c = some "toyb-date"
          ∨ tagOfN c = some "toyb-head") →
        hasTagL "toyb-draft" (childrenN c) = false
          ∧ hasTagL "toyb-star" (childrenN c) = false)
    ∧ demoPost3.bodyChildren = stripBody demoCs3
    ∧ hasTagL "toyb-draft" demoPost3.bodyChildren = hasTagL "toyb-draft" demoCs3 :=
  ⟨rfl, by decide,
    (claim3_body_strip_amended parseDateDemo "w3.html" demoCs3 demoPost3 rfl (by decide)).2.1,
    (claim3_body_strip_amended parseDateDemo "w3.html" demoCs3 demoPost3 rfl (by decide)).2.2.2.2.1⟩

theorem claim6_sort_order_stability_witness :
    ([demoPostA, demoPostB].map Post.dateTs).Nodup
    ∧ sortPosts true [demoPostA, demoPostB]
        = (sortPosts false [demoPostA, demoPostB]).reverse
    ∧ (sortPosts true [demoPostA, demoPostB, demoPostC]).filter (fun p => p.dateTs == 1)
        = [demoPostA, demoPostB, demoPostC].filter (fun p => p.dateTs == 1) :=
  ⟨by decide,
    (claim6_sort_order_stability [demoPostA, demoPostB]).2.2.2.1 (by decide),
    (claim6_sort_order_stability [demoPostA, demoPostB, demoPostC]).2.2.2.2 true 1⟩

theorem claim10_no_escaping_witness :
    demoTitlePost ∈ [demoTitlePost]
    ∧ (∃ s t, mkPostNavString [demoTitlePost]
        = s ++ ("<li><a href=\"./" ++ demoTitlePost.filename ++ "\">"
                  ++ demoTitlePost.title ++ "</a></li>") ++ t)
    ∧ postTitleString demoTitlePost = demoTitlePost.title :=
  ⟨List.mem_singleton.mpr rfl,
    (claim10_no_escaping [demoTitlePost] demoTitlePost (List.mem_singleton.mpr rfl)).1,
    (claim10_no_escaping [demoTitlePost] demoTitlePost (List.mem_singleton.mpr rfl)).2⟩

end ToyBlog
